import Mathlib

/-!
Shallow embedding of the DeadHorizon turn engine, dungeon generator, combat
resolver and player model, translated from the Python sources under `src/`.
Machine integers are modelled as `Int` (Python integers are unbounded), Python
floor division `//` as `Int.fdiv`, and the process-wide random source as an
externally chosen stream of integers that each `randint` call consumes.
Presentation-only state (glyphs, colors, message log, visual effects,
`is_flashing`) is omitted throughout; it never feeds back into game logic.
-/

namespace DeadHorizon

/-- Python floor division `a // b`. -/
def pydiv (a b : Int) : Int := Int.fdiv a b

/-- One draw of `random.randint(a, b)` from an externally chosen stream: the
next stream value is used when it lies in `[a, b]`, otherwise the lower bound
is used, so every value of the range is reachable and no draw escapes it.
On an empty range (`a > b`) Python's `randint` raises `ValueError`; this
embedding returns `a` there instead, so any theorem about a code path that
can reach an empty range must carry hypotheses ruling that range out. -/
def randint (a b : Int) : List Int → Int × List Int
  | [] => (a, [])
  | n :: rest => (if a ≤ n ∧ n ≤ b then n else a, rest)

/-- One draw of the coin `random.random() < 0.5`. -/
def randBool : List Int → Bool × List Int
  | [] => (true, [])
  | n :: rest => (n % 2 == 0, rest)

/-- Tile kinds of `src/map/tile.py` that the generator and engine use. -/
inductive Tile where
  | wall
  | floor
  | doorClosed
  | doorOpen
  deriving DecidableEq

/-- The `walkable` field of the tile records in `src/map/tile.py`. -/
def Tile.walkable : Tile → Bool
  | .wall => false
  | .floor => true
  | .doorClosed => false
  | .doorOpen => true

/-- The `transparent` field of the tile records in `src/map/tile.py`. -/
def Tile.transparent : Tile → Bool
  | .wall => false
  | .floor => true
  | .doorClosed => false
  | .doorOpen => true

/-- `RectangularRoom` of `src/map/procgen.py`. -/
structure RectangularRoom where
  x1 : Int
  y1 : Int
  x2 : Int
  y2 : Int
  deriving DecidableEq

/-- `RectangularRoom.__init__(x, y, width, height)`. -/
def RectangularRoom.make (x y width height : Int) : RectangularRoom :=
  ⟨x, y, x + width, y + height⟩

/-- `RectangularRoom.center`. -/
def RectangularRoom.center (r : RectangularRoom) : Int × Int :=
  (pydiv (r.x1 + r.x2) 2, pydiv (r.y1 + r.y2) 2)

/-- Membership in the `inner` slice pair `slice(x1+1, x2) × slice(y1+1, y2)`. -/
def RectangularRoom.innerContains (r : RectangularRoom) (x y : Int) : Bool :=
  decide (r.x1 + 1 ≤ x ∧ x < r.x2 ∧ r.y1 + 1 ≤ y ∧ y < r.y2)

/-- `RectangularRoom.intersects`: rectangle overlap with inclusive bounds. -/
def RectangularRoom.intersects (r other : RectangularRoom) : Bool :=
  decide (r.x1 ≤ other.x2 ∧ r.x2 ≥ other.x1 ∧ r.y1 ≤ other.y2 ∧ r.y2 ≥ other.y1)

/-- `GameMap` of `src/map/game_map.py`: the tile grid, the visibility and
explored masks, and the room list kept for spawning. The numpy arrays are
modelled as total functions on coordinates. -/
structure GameMap where
  width : Int
  height : Int
  tiles : Int → Int → Tile
  visible : Int → Int → Bool
  explored : Int → Int → Bool
  rooms : List RectangularRoom

/-- `GameMap.__init__`: all tiles start as walls, nothing visible/explored. -/
def GameMap.new (width height : Int) : GameMap :=
  ⟨width, height, fun _ _ => .wall, fun _ _ => false, fun _ _ => false, []⟩

/-- `GameMap.in_bounds`. -/
def GameMap.inBounds (m : GameMap) (x y : Int) : Bool :=
  decide (0 ≤ x ∧ x < m.width ∧ 0 ≤ y ∧ y < m.height)

/-- Point assignment `game_map.tiles[x, y] = t`. -/
def GameMap.setTile (m : GameMap) (x y : Int) (t : Tile) : GameMap :=
  { m with tiles := fun a b => if a = x ∧ b = y then t else m.tiles a b }

/-- `GameMap.compute_fov`: `visible` is fully overwritten with the result of
the external `tcod.map.compute_fov` library call (modelled by the oracle
argument `fov`), then `explored |= visible`. -/
def GameMap.computeFov (m : GameMap) (fov : Int → Int → Bool) : GameMap :=
  { m with
    visible := fov
    explored := fun x y => m.explored x y || fov x y }

/-- Python `range(a, b)` over integers, as a list. -/
def intRange (a b : Int) : List Int :=
  (List.range (b - a).toNat).map (fun i => a + i)

/-- Carving `game_map.tiles[new_room.inner] = tile_types.floor`. -/
def carveRoom (m : GameMap) (room : RectangularRoom) : GameMap :=
  { m with tiles := fun x y => if room.innerContains x y then .floor else m.tiles x y }

/-- All integer points of the horizontal segment at height `y` between `xa`
and `xb`, endpoints included. -/
def hSegment (y xa xb : Int) : List (Int × Int) :=
  (intRange (min xa xb) (max xa xb + 1)).map (fun x => (x, y))

/-- All integer points of the vertical segment at column `x` between `ya` and
`yb`, endpoints included. -/
def vSegment (x ya yb : Int) : List (Int × Int) :=
  (intRange (min ya yb) (max ya yb + 1)).map (fun y => (x, y))

/-- `tunnel_between`: pick the L-bend corner at random and return the points
of both legs. Each leg of the L shares a coordinate with its endpoints, and
`tcod.los.bresenham` on such axis-aligned endpoints yields exactly the integer
points between them, so the two legs are embedded as straight segments. -/
def tunnelBetween (start stop : Int × Int) (rng : List Int) :
    List (Int × Int) × List Int :=
  let draw := randBool rng
  if draw.1 then
    (hSegment start.2 start.1 stop.1 ++ vSegment stop.1 start.2 stop.2, draw.2)
  else
    (vSegment start.1 start.2 stop.2 ++ hSegment stop.2 start.1 stop.1, draw.2)

/-- Carving the tunnel loop `for x, y in ...: game_map.tiles[x, y] = floor`. -/
def carvePoints (m : GameMap) (pts : List (Int × Int)) : GameMap :=
  pts.foldl (fun acc p => acc.setTile p.1 p.2 .floor) m

/-- One iteration of the placement loop in `generate_dungeon`: draw a random
rectangle, skip it if it intersects any placed room, otherwise carve it,
tunnel to the previous room and append it to the accepted list. -/
def placeRoomAttempt (mapWidth mapHeight roomMinSize roomMaxSize : Int)
    (st : GameMap × List RectangularRoom × List Int) :
    GameMap × List RectangularRoom × List Int :=
  let m := st.1
  let rooms := st.2.1
  let d1 := randint roomMinSize roomMaxSize st.2.2
  let d2 := randint roomMinSize roomMaxSize d1.2
  let d3 := randint 0 (mapWidth - d1.1 - 1) d2.2
  let d4 := randint 0 (mapHeight - d2.1 - 1) d3.2
  let newRoom := RectangularRoom.make d3.1 d4.1 d1.1 d2.1
  if rooms.any (fun other => newRoom.intersects other) then
    (m, rooms, d4.2)
  else
    let carved := carveRoom m newRoom
    let step :=
      match rooms.getLast? with
      | some prev =>
          let tun := tunnelBetween prev.center newRoom.center d4.2
          (carvePoints carved tun.1, tun.2)
      | none => (carved, d4.2)
    (step.1, rooms ++ [newRoom], step.2)

/-- `try_place_door` of `_place_doors`. -/
def tryPlaceDoor (m : GameMap) (x y : Int) (inside outside : Int × Int) :
    GameMap :=
  if ¬ (m.inBounds outside.1 outside.2 = true) then m
  else if m.tiles x y = .wall ∧ m.tiles inside.1 inside.2 = .floor ∧
      m.tiles outside.1 outside.2 = .floor then
    m.setTile x y .doorClosed
  else m

/-- The per-room body of `_place_doors`: walk the top/bottom boundary for each
column of `range(x1+1, x2-1)`, then the left/right boundary for each row of
`range(y1+1, y2-1)`. -/
def placeDoorsRoom (m : GameMap) (room : RectangularRoom) : GameMap :=
  let afterX := (intRange (room.x1 + 1) (room.x2 - 1)).foldl
    (fun acc x =>
      let acc := tryPlaceDoor acc x room.y1 (x, room.y1 + 1) (x, room.y1 - 1)
      tryPlaceDoor acc x (room.y2 - 1) (x, room.y2 - 2) (x, room.y2)) m
  (intRange (room.y1 + 1) (room.y2 - 1)).foldl
    (fun acc y =>
      let acc := tryPlaceDoor acc room.x1 y (room.x1 + 1, y) (room.x1 - 1, y)
      tryPlaceDoor acc (room.x2 - 1) y (room.x2 - 2, y) (room.x2, y)) afterX

/-- `_place_doors`. -/
def placeDoors (m : GameMap) (rooms : List RectangularRoom) : GameMap :=
  rooms.foldl placeDoorsRoom m

/-- `generate_dungeon`. The Python code ends with `rooms[0].center`, which
raises `IndexError` when no room was accepted; that fatal path is modelled by
returning `none`. -/
def generateDungeon (mapWidth mapHeight : Int) (maxRooms : Nat)
    (roomMinSize roomMaxSize : Int) (rng : List Int) :
    Option (GameMap × Int × Int) :=
  let init : GameMap × List RectangularRoom × List Int :=
    (GameMap.new mapWidth mapHeight, [], rng)
  let final := (List.range maxRooms).foldl
    (fun st _ => placeRoomAttempt mapWidth mapHeight roomMinSize roomMaxSize st)
    init
  let m := { final.1 with rooms := final.2.1 }
  let m := placeDoors m final.2.1
  match final.2.1.head? with
  | some first => some (m, first.center.1, first.center.2)
  | none => none

/-- The per-zombie position selection of `Game._spawn_zombies`: sample an
interior point of a randomly chosen room when rooms exist, else fall back to a
uniform point over the whole grid interior (`randint(1, width-2)` by
`randint(1, height-2)`). `random.choice(rooms)` is modelled by drawing a
uniform index into the room list. -/
def spawnPos (rooms : List RectangularRoom) (mapWidth mapHeight : Int)
    (rng : List Int) : (Int × Int) × List Int :=
  match rooms with
  | [] =>
      let dx := randint 1 (mapWidth - 2) rng
      let dy := randint 1 (mapHeight - 2) dx.2
      ((dx.1, dy.1), dy.2)
  | r0 :: rest =>
      let di := randint 0 (Int.ofNat rest.length) rng
      let room := (r0 :: rest).getD di.1.toNat r0
      let dx := randint (room.x1 + 1) (room.x2 - 1) di.2
      let dy := randint (room.y1 + 1) (room.y2 - 1) dx.2
      ((dx.1, dy.1), dy.2)

/-- `ZombieType` of `src/entities/monster.py`. -/
inductive ZombieType where
  | zombie
  | fast
  | brute
  | crawler
  | skeleton
  deriving DecidableEq

/-- The hp column of `ZOMBIE_CONFIGS`. -/
def zombieHp : ZombieType → Int
  | .zombie => 10
  | .fast => 6
  | .brute => 20
  | .crawler => 5
  | .skeleton => 8

/-- The attack column of `ZOMBIE_CONFIGS`. -/
def zombieAttack : ZombieType → Int
  | .zombie => 3
  | .fast => 2
  | .brute => 5
  | .crawler => 4
  | .skeleton => 3

/-- The defense column of `ZOMBIE_CONFIGS`. -/
def zombieDefense : ZombieType → Int
  | .zombie => 0
  | .fast => 0
  | .brute => 2
  | .crawler => 0
  | .skeleton => 1

/-- `ItemStats` of `src/items/item.py`. -/
structure ItemStats where
  damage : Int
  defense : Int
  accuracy : Int
  critBonus : Int
  hpRestore : Int
  hungerRestore : Int
  thirstRestore : Int
  deriving DecidableEq

/-- The attributes of an `Entity` that the combat resolver and the turn engine
read or write. A `Player` instance has `isPlayer = true`, the `get_total_*`
methods, leveling fields, optional equipment and no `zombie_type`; a `Monster`
instance has `isPlayer = false`, a `zombie_type`, and no equipment, crit,
accuracy or leveling attributes (those fields are 0 / `none` for it; the code
reads them through `getattr(..., default)`). All spawned entities block. -/
structure Actor where
  x : Int
  y : Int
  hp : Int
  maxHp : Int
  attack : Int
  defense : Int
  isPlayer : Bool
  critBonus : Int
  accuracyBonus : Int
  weapon : Option ItemStats
  armor : Option ItemStats
  zType : Option ZombieType
  level : Int
  xp : Int
  xpToNext : Int
  vitality : Int
  deriving DecidableEq

/-- `Player.get_total_attack`. -/
def Actor.getTotalAttack (a : Actor) : Int :=
  a.attack + (a.weapon.map ItemStats.damage).getD 0

/-- `Player.get_total_defense`. -/
def Actor.getTotalDefense (a : Actor) : Int :=
  a.defense + (a.armor.map ItemStats.defense).getD 0

/-- `Player.get_total_accuracy`: the stat-derived bonus plus equipment. -/
def Actor.getTotalAccuracy (a : Actor) : Int :=
  a.accuracyBonus + (a.weapon.map ItemStats.accuracy).getD 0 +
    (a.armor.map ItemStats.accuracy).getD 0

/-- `Player.get_total_crit_bonus`. -/
def Actor.getTotalCritBonus (a : Actor) : Int :=
  a.critBonus + (a.weapon.map ItemStats.critBonus).getD 0 +
    (a.armor.map ItemStats.critBonus).getD 0

/-- `Player.gain_xp` / `Player.level_up`: `float` arithmetic
`int(xp_to_next_level * 1.5)` is exact for every value the game reaches, and
equals floor division of `3 * xp_to_next_level` by 2. -/
def Actor.levelUp (p : Actor) : Actor :=
  let p := { p with level := p.level + 1, xp := p.xp - p.xpToNext }
  let p := { p with xpToNext := pydiv (3 * p.xpToNext) 2 }
  let hpBonus := 5 + pydiv p.vitality 2
  let p := { p with maxHp := p.maxHp + hpBonus }
  { p with hp := p.maxHp }

/-- `Player.gain_xp`: add the award, then level up (once — the source uses
`if`, not a loop) when the total reaches the threshold. -/
def Actor.gainXp (p : Actor) (amount : Int) : Actor × Bool :=
  let p := { p with xp := p.xp + amount }
  if p.xp ≥ p.xpToNext then (p.levelUp, true) else (p, false)

/-- `AttackResult` of `src/systems/combat.py`. -/
inductive AttackResult where
  | miss
  | hit
  | critical
  | blocked
  deriving DecidableEq

/-- `Combat.calculate_hit_chance`. The `hasattr` dispatch on the
`get_total_*` methods resolves to whether the entity is the player; the
crawler dodge bonus applies to defenders carrying `zombie_type == CRAWLER`. -/
def calculateHitChance (attacker defender : Actor) : Int :=
  let base : Int := 85
  let attackBonus :=
    if attacker.isPlayer then attacker.getTotalAccuracy else attacker.attack * 2
  let dodgePenalty :=
    if defender.isPlayer then defender.getTotalDefense * 3 else defender.defense * 5
  let dodgePenalty :=
    dodgePenalty + (if defender.zType = some .crawler then 15 else 0)
  max 5 (min 95 (base + attackBonus - dodgePenalty))

/-- `Combat.calculate_crit_chance`: a `Monster` has no `crit_bonus` attribute,
so `getattr(attacker, 'crit_bonus', 0)` yields 0 for it. -/
def calculateCritChance (attacker : Actor) : Int :=
  let critBonus := if attacker.isPlayer then attacker.getTotalCritBonus else 0
  min 50 (10 + critBonus)

/-- `Combat.roll_attack`. -/
def rollAttack (attacker defender : Actor) (rng : List Int) :
    AttackResult × List Int :=
  let hitChance := calculateHitChance attacker defender
  let hitDraw := randint 1 100 rng
  if hitDraw.1 > hitChance then (.miss, hitDraw.2)
  else
    let critChance := calculateCritChance attacker
    let critDraw := randint 1 100 hitDraw.2
    if critDraw.1 ≤ critChance then (.critical, critDraw.2)
    else
      let defenderDefense :=
        if defender.isPlayer then defender.getTotalDefense else defender.defense
      if defenderDefense ≥ 3 then
        let blockDraw := randint 1 100 critDraw.2
        if blockDraw.1 ≤ defenderDefense * 5 then (.blocked, blockDraw.2)
        else (.hit, blockDraw.2)
      else (.hit, critDraw.2)

/-- `Combat.calculate_damage`: `int(damage * 2.0)` is exactly `damage * 2`. -/
def calculateDamage (attacker defender : Actor) (isCritical : Bool)
    (rng : List Int) : Int × List Int :=
  let attackPower :=
    if attacker.isPlayer then attacker.getTotalAttack else attacker.attack
  let defense :=
    if defender.isPlayer then defender.getTotalDefense else defender.defense
  let baseDamage := attackPower - pydiv defense 2
  let varDraw := randint (-1) 2 rng
  let damage := baseDamage + varDraw.1
  let damage := if isCritical then damage * 2 else damage
  (max 1 damage, varDraw.2)

/-- Sign normalisation `0 if d == 0 else (1 if d > 0 else -1)` used by
knockback and by the monster chase step. -/
def signum (d : Int) : Int :=
  if d = 0 then 0 else if d > 0 then 1 else -1

/-- `Combat.apply_knockback`: `walkable` models `game.game_map.walkable` and
`blockedAt` models `game._get_blocking_entity_at(x, y) is not None`. Returns
the possibly moved defender and whether the push landed. -/
def applyKnockback (attacker defender : Actor)
    (walkable blockedAt : Int → Int → Bool) : Actor × Bool :=
  let pushX := signum (defender.x - attacker.x)
  let pushY := signum (defender.y - attacker.y)
  let newX := defender.x + pushX
  let newY := defender.y + pushY
  if walkable newX newY = true then
    if blockedAt newX newY = false then
      ({ defender with x := newX, y := newY }, true)
    else (defender, false)
  else (defender, false)

/-- Result record of `Combat.perform_attack`: the outcome, the damage dealt,
the updated defender (hp reduced, possibly knocked back), whether the
knockback branch ran, and the remaining random stream. -/
structure AttackOutcome where
  result : AttackResult
  damage : Int
  defender : Actor
  knockbackAttempted : Bool
  rng : List Int

/-- `Combat.perform_attack`. -/
def performAttack (attacker defender : Actor)
    (walkable blockedAt : Int → Int → Bool) (rng : List Int) : AttackOutcome :=
  let roll := rollAttack attacker defender rng
  let result := roll.1
  if result = .miss then ⟨result, 0, defender, false, roll.2⟩
  else if result = .blocked then
    let dmgDraw := calculateDamage attacker defender false roll.2
    let damage := max 0 (pydiv dmgDraw.1 3)
    ⟨result, damage, { defender with hp := defender.hp - damage }, false,
      dmgDraw.2⟩
  else
    let isCrit := result = .critical
    let dmgDraw := calculateDamage attacker defender isCrit roll.2
    let damage := dmgDraw.1
    let struck := { defender with hp := defender.hp - damage }
    if isCrit ∨ damage ≥ 6 then
      let pushed := applyKnockback attacker struck walkable blockedAt
      ⟨result, damage, pushed.1, true, dmgDraw.2⟩
    else ⟨result, damage, struck, false, dmgDraw.2⟩

/-- `Game._get_blocking_entity_at`: the first entity in list order, other than
the player, that blocks and stands at `(x, y)`. The entity list is the player
followed by the monster list, every spawned entity blocks, and the `entity !=
self.player` identity test skips exactly the player, so the search runs over
the monster list; the returned index models the returned object identity. -/
def findBlocker : List Actor → Int → Int → Option (Nat × Actor)
  | [], _, _ => none
  | m :: rest, x, y =>
      if m.x = x ∧ m.y = y then some (0, m)
      else (findBlocker rest x y).map (fun p => (p.1 + 1, p.2))

/-- The Boolean occupancy view of `_get_blocking_entity_at` that the combat
resolver consumes. -/
def blockedAtFn (monsters : List Actor) : Int → Int → Bool :=
  fun x y => (findBlocker monsters x y).isSome

/-- The game state the move/turn pipeline touches: the player, the non-player
entities in insertion order, and the map data read during a turn (`walkable`
never changes during a turn; `visible` is rewritten by the FOV pass after a
successful player move). Messages, effects, 'explored', the game-over flag and
ground items are presentation or bookkeeping state with no feedback into the
claims modelled here. -/
structure GameState where
  player : Actor
  monsters : List Actor
  width : Int
  height : Int
  walkable : Int → Int → Bool
  visible : Int → Int → Bool
  kills : Nat

/-- `Monster._move_towards_player`: one sign-of-delta step with the
wall/occupancy checks and the horizontal/vertical fallback when a diagonal is
blocked by an entity. `blocked` is the occupancy of the full monster list
(including the moving monster itself, as in the source). -/
def moveTowardsPlayer (walkable blocked : Int → Int → Bool) (m : Actor)
    (dx dy : Int) : Actor :=
  let stepX := signum dx
  let stepY := signum dy
  let destX := m.x + stepX
  let destY := m.y + stepY
  if walkable destX destY = true then
    if blocked destX destY = false then { m with x := destX, y := destY }
    else if stepX ≠ 0 ∧ stepY ≠ 0 then
      if walkable (m.x + stepX) m.y = true ∧ blocked (m.x + stepX) m.y = false then
        { m with x := m.x + stepX }
      else if walkable m.x (m.y + stepY) = true ∧ blocked m.x (m.y + stepY) = false then
        { m with y := m.y + stepY }
      else m
    else m
  else m

/-- `Monster._attack_player`: full combat resolution with the monster as
attacker and the player as defender (the player may be knocked back). -/
def monsterAttackPlayer (s : GameState) (m : Actor) (rng : List Int) :
    GameState × List Int :=
  let out := performAttack m s.player s.walkable (blockedAtFn s.monsters) rng
  ({ s with player := out.defender }, out.rng)

/-- `Monster.take_turn` for the monster at index `i` of the monster list. -/
def takeTurn (s : GameState) (i : Nat) (rng : List Int) :
    GameState × List Int :=
  match s.monsters.get? i with
  | none => (s, rng)
  | some m =>
      if s.visible m.x m.y = false then (s, rng)
      else
        let dx := s.player.x - m.x
        let dy := s.player.y - m.y
        let distance : Int := max |dx| |dy|
        if distance ≤ 1 then monsterAttackPlayer s m rng
        else if distance ≤ 8 then
          let m1 := moveTowardsPlayer s.walkable (blockedAtFn s.monsters) m dx dy
          let s1 := { s with monsters := s.monsters.set i m1 }
          if m1.zType = some .fast ∧ distance > 2 then
            let dx1 := s1.player.x - m1.x
            let dy1 := s1.player.y - m1.y
            let m2 := moveTowardsPlayer s1.walkable (blockedAtFn s1.monsters) m1 dx1 dy1
            ({ s1 with monsters := s1.monsters.set i m2 }, rng)
          else (s1, rng)
        else (s, rng)

/-- `Game._process_enemy_turns`: every entity other than the player takes one
turn, in list order (no entity is added or removed during the loop). The log
lists the indices whose `take_turn` was invoked, instrumenting the loop for
the turn-consumption claim. The player-death check after the loop only sets
the game-over flag, which is not modelled. -/
def processEnemyTurns (s : GameState) (rng : List Int) :
    GameState × List Nat × List Int :=
  (List.range s.monsters.length).foldl
    (fun acc i =>
      let next := takeTurn acc.1 i acc.2.2
      (next.1, acc.2.1 ++ [i], next.2))
    (s, [], rng)

/-- `Game._handle_move`: attack when a blocking entity stands at the
destination, return untouched when the destination is not walkable, move
otherwise; the enemy phase runs except on the not-walkable early return. The
second component is the enemy-phase invocation log. `newVisible` is the oracle
for the external FOV recompute after a successful move; the XP message, item
notification, death drop roll and visual effects are omitted. -/
def handleMove (s : GameState) (dx dy : Int)
    (newVisible : Int → Int → Bool) (rng : List Int) : GameState × List Nat :=
  let destX := s.player.x + dx
  let destY := s.player.y + dy
  match findBlocker s.monsters destX destY with
  | some (i, target) =>
      let out := performAttack s.player target s.walkable (blockedAtFn s.monsters) rng
      let s1 := { s with monsters := s.monsters.set i out.defender }
      let s2 :=
        if out.defender.hp ≤ 0 then
          let xpGained := 10 + out.defender.maxHp
          { s1 with
            kills := s1.kills + 1,
            player := (s1.player.gainXp xpGained).1,
            monsters := s1.monsters.eraseIdx i }
        else s1
      let fin := processEnemyTurns s2 out.rng
      (fin.1, fin.2.1)
  | none =>
      if s.walkable destX destY = false then (s, [])
      else
        let s1 := { s with
          player := { s.player with x := destX, y := destY },
          visible := newVisible }
        let fin := processEnemyTurns s1 rng
        (fin.1, fin.2.1)

/-- `ItemType` of `src/items/item.py`. -/
inductive ItemType where
  | weapon
  | armor
  | consumable
  | ammo
  | material
  | tool
  deriving DecidableEq

/-- `EquipSlot` of `src/items/item.py`. -/
inductive EquipSlot where
  | weapon
  | armor
  | none
  deriving DecidableEq

/-- `Item` of `src/items/item.py`; glyph, color, description, value, weight
and tile id are presentation fields and are omitted. -/
structure Item where
  name : String
  itemType : ItemType
  equipSlot : EquipSlot
  stats : ItemStats
  stackable : Bool
  stackSize : Int
  maxStack : Int
  deriving DecidableEq

/-- The `Player` fields that the consumable path touches: survival gauges and
the inventory list. -/
structure Player where
  hp : Int
  maxHp : Int
  hunger : Int
  thirst : Int
  inventory : List Item
  deriving DecidableEq

/-- `Player.heal`: clamp to `max_hp` and report the amount healed. -/
def Player.heal (p : Player) (amount : Int) : Player × Int :=
  let newHp := min (p.hp + amount) p.maxHp
  ({ p with hp := newHp }, newHp - p.hp)

/-- `Player.remove_from_inventory`: `list.remove` drops the first element
comparing equal. -/
def Player.removeFromInventory (p : Player) (item : Item) : Player × Bool :=
  if item ∈ p.inventory then
    ({ p with inventory := p.inventory.erase item }, true)
  else (p, false)

/-- The in-place `item.stack_size -= 1` seen through the inventory list: the
consumed item is an aliased inventory entry, so the first entry equal to it is
decremented. -/
def decrementFirst : List Item → Item → List Item
  | [], _ => []
  | it :: rest, item =>
      if it = item then { it with stackSize := it.stackSize - 1 } :: rest
      else it :: decrementFirst rest item

/-- `Player.use_item`: apply the hp/hunger/thirst restores, and consume the
item only when at least one effect message was produced; otherwise fail.
The booleans mirror the `messages.append` calls. -/
def Player.useItem (p : Player) (item : Item) : Player × Bool :=
  if item.itemType ≠ ItemType.consumable then (p, false)
  else
    let step1 :=
      if item.stats.hpRestore > 0 then p.heal item.stats.hpRestore else (p, 0)
    let p1 := step1.1
    let msgHp := item.stats.hpRestore > 0 ∧ step1.2 > 0
    let step2 :=
      if item.stats.hungerRestore > 0 then
        let newHunger := min 100 (p1.hunger + item.stats.hungerRestore)
        ({ p1 with hunger := newHunger }, newHunger - p1.hunger)
      else (p1, 0)
    let p2 := step2.1
    let msgHunger := item.stats.hungerRestore > 0 ∧ step2.2 > 0
    let step3 :=
      if item.stats.thirstRestore > 0 then
        let newThirst := min 100 (p2.thirst + item.stats.thirstRestore)
        ({ p2 with thirst := newThirst }, newThirst - p2.thirst)
      else (p2, 0)
    let p3 := step3.1
    let msgThirst := item.stats.thirstRestore > 0 ∧ step3.2 > 0
    if msgHp ∨ msgHunger ∨ msgThirst then
      let p4 :=
        if item.stackable = true ∧ item.stackSize > 1 then
          { p3 with inventory := decrementFirst p3.inventory item }
        else (p3.removeFromInventory item).1
      (p4, true)
    else (p3, false)

/-! Concrete instances used by witnesses. -/

/-- A freshly constructed default player (all five stats at 5), with the
derived fields exactly as `Player.__init__` computes them: `max_hp = 20+4·5`,
`attack = 2+5`, `defense = 5//2`, `crit_bonus = (5+5)-5`,
`accuracy_bonus = 2·5`, level 1, 0 xp, threshold 100, no equipment. -/
def freshPlayer : Actor :=
  { x := 0, y := 0, hp := 40, maxHp := 40, attack := 7, defense := 2,
    isPlayer := true, critBonus := 5, accuracyBonus := 10, weapon := none,
    armor := none, zType := none, level := 1, xp := 0,
    xpToNext := 100, vitality := 5 }

/-- `Monster.spawn_zombie`: a monster built from `ZOMBIE_CONFIGS`; the
crit/accuracy/leveling attributes do not exist on a `Monster`, so their
fields are zero and it carries no equipment. -/
def spawnZombie (zt : ZombieType) (x y : Int) : Actor :=
  { x := x, y := y, hp := zombieHp zt, maxHp := zombieHp zt,
    attack := zombieAttack zt, defense := zombieDefense zt, isPlayer := false,
    critBonus := 0, accuracyBonus := 0, weapon := none, armor := none,
    zType := some zt, level := 0, xp := 0, xpToNext := 0, vitality := 0 }

/-- Closed instance of the C8 theorem on a concrete map and FOV result. -/
def mapEx : GameMap :=
  { width := 3, height := 3, tiles := fun _ _ => Tile.floor,
    visible := fun _ _ => false,
    explored := fun x y => decide (x = 0 ∧ y = 0), rooms := [] }

/-- A bandage as in the item registry (`hp_restore = 10`, stackable). -/
def bandage : Item :=
  { name := "Bandage", itemType := ItemType.consumable,
    equipSlot := EquipSlot.none,
    stats := { damage := 0, defense := 0, accuracy := 0, critBonus := 0,
               hpRestore := 10, hungerRestore := 0, thirstRestore := 0 },
    stackable := true, stackSize := 3, maxStack := 10 }

/-- A player at full health and full gauges holding one bandage stack. -/
def fullPlayer : Player :=
  { hp := 40, maxHp := 40, hunger := 100, thirst := 100,
    inventory := [bandage] }

/-- Pairwise non-overlap of an accepted room list. -/
def RoomsDisjoint (rooms : List RectangularRoom) : Prop :=
  rooms.Pairwise (fun a b => a.intersects b = false)

/-- Closed instance of the C7 theorem on a concrete successful generation. -/
def genExTriple : GameMap × Int × Int :=
  (generateDungeon 20 20 1 3 3 []).getD (GameMap.new 1 1, 0, 0)

/-- Relation between a grid and the grid after any number of
`try_place_door` rewrites: the floor set is untouched, walls only turn into
closed doors, and every new closed door sits on a former wall whose two
checked neighbours — the axis pair of the placing call — are floor. -/
def DoorStep (g0 g : GameMap) : Prop :=
  (∀ a b : Int, g0.tiles a b = .floor ↔ g.tiles a b = .floor) ∧
  (∀ a b : Int, g.tiles a b = .wall → g0.tiles a b = .wall) ∧
  (∀ a b : Int, g.tiles a b = .doorClosed → g0.tiles a b = .doorClosed ∨
    (g0.tiles a b = .wall ∧
      ((g.tiles a (b - 1) = .floor ∧ g.tiles a (b + 1) = .floor) ∨
       (g.tiles (a - 1) b = .floor ∧ g.tiles (a + 1) b = .floor))))

/-- A concrete map: a room interior, a wall ring and one corridor cell just
outside the room's top edge, so door placement fires at (2, 1). -/
def doorMapEx : GameMap :=
  { width := 8, height := 8,
    tiles := fun x y =>
      if (2 ≤ x ∧ x ≤ 4 ∧ 2 ≤ y ∧ y ≤ 4) ∨ (x = 2 ∧ y = 0) then .floor
      else .wall,
    visible := fun _ _ => false, explored := fun _ _ => false, rooms := [] }

/-- An `Actor` that models a `Monster` spawned from `ZOMBIE_CONFIGS`: not the
player, no equipment and no crit attribute, and attack/defense fixed by its
config row (position and current hp vary over play). -/
def isConfigMonster (a : Actor) : Prop :=
  a.isPlayer = false ∧ a.critBonus = 0 ∧ a.weapon = none ∧ a.armor = none ∧
    ∃ zt : ZombieType, a.zType = some zt ∧ a.attack = zombieAttack zt ∧
      a.defense = zombieDefense zt

/-- The two `perform_attack` call patterns of the game: the player attacking a
spawned monster (`Game._handle_move`), or a spawned monster attacking the
player (`Monster._attack_player`). -/
def validAttackPair (attacker defender : Actor) : Prop :=
  (attacker.isPlayer = true ∧ isConfigMonster defender) ∨
  (isConfigMonster attacker ∧ defender.isPlayer = true)

/-- The default player standing at (2, 1) of a small corridor map with one
zombie two cells to its right. -/
def stateEx : GameState :=
  { player := { freshPlayer with x := 2, y := 1 },
    monsters := [spawnZombie .zombie 4 1],
    width := 6, height := 3,
    walkable := fun x y => decide (1 ≤ x ∧ x ≤ 4 ∧ y = 1),
    visible := fun _ _ => true, kills := 0 }

/-- Position-disjointness of two entities. -/
def posDistinct (a b : Actor) : Prop := ¬(a.x = b.x ∧ a.y = b.y)

/-- The occupancy invariant over the pieces of a game state: the player and
every monster stand on walkable in-bounds cells, no monster shares the
player's cell, and no two monsters share a cell. -/
def InvOn (w : Int → Int → Bool) (width height : Int) (p : Actor)
    (ms : List Actor) : Prop :=
  (w p.x p.y = true ∧ 0 ≤ p.x ∧ p.x < width ∧ 0 ≤ p.y ∧ p.y < height) ∧
  (∀ m ∈ ms, w m.x m.y = true ∧ 0 ≤ m.x ∧ m.x < width ∧ 0 ≤ m.y ∧
    m.y < height) ∧
  (∀ m ∈ ms, posDistinct m p) ∧
  ms.Pairwise posDistinct

/-- The occupancy invariant of a game state. -/
def Inv (s : GameState) : Prop :=
  InvOn s.walkable s.width s.height s.player s.monsters

/-- Walkable cells lie strictly inside the border, as holds for every
generated map: room interiors and corridors never touch the outer ring of
the grid, so the border is all wall. -/
def ClosedMap (w : Int → Int → Bool) (width height : Int) : Prop :=
  ∀ x y : Int, w x y = true → 1 ≤ x ∧ x ≤ width - 2 ∧ 1 ≤ y ∧ y ≤ height - 2

/-- `ClosedMap` for the map data of a game state. -/
def MapClosed (s : GameState) : Prop :=
  ClosedMap s.walkable s.width s.height

theorem randint_le {a b : Int} (h : a ≤ b) (s : List Int) :
    a ≤ (randint a b s).1 ∧ (randint a b s).1 ≤ b := by
  cases s with
  | nil => exact ⟨le_refl a, h⟩
  | cons n rest =>
      simp only [randint]
      split
      · next hn => exact ⟨hn.1, hn.2⟩
      · exact ⟨le_refl a, h⟩

theorem RectangularRoom.intersects_comm (a b : RectangularRoom) :
    a.intersects b = b.intersects a := by
  simp only [RectangularRoom.intersects, decide_eq_decide, ge_iff_le]
  constructor
  · rintro ⟨h1, h2, h3, h4⟩; exact ⟨h2, h1, h4, h3⟩
  · rintro ⟨h1, h2, h3, h4⟩; exact ⟨h2, h1, h4, h3⟩

/-! C8 — FOV monotonicity. -/

/-- C8: after any `compute_fov` call the `explored` mask is a superset of the
mask before the call (no cell is reset), and every cell the call marks
visible is also marked explored. -/
theorem c8_fov_explored_monotone (m : GameMap) (fov : Int → Int → Bool)
    (x y : Int) :
    (m.explored x y = true → (m.computeFov fov).explored x y = true) ∧
    ((m.computeFov fov).visible x y = true →
      (m.computeFov fov).explored x y = true) := by
  constructor
  · intro h
    simp [GameMap.computeFov, h]
  · intro h
    simp only [GameMap.computeFov] at h ⊢
    simp [h]

theorem c8_witness :
    (mapEx.computeFov fun _ _ => true).explored 0 0 = true :=
  (c8_fov_explored_monotone mapEx (fun _ _ => true) 0 0).1 (by decide)

/-! C5 — the damage formula at attack 7 versus defense 0. -/

/-- C5: a non-critical damage roll by a player with total attack 7 against a
defender with total defense 0 always lands in the closed range [6, 9]. -/
theorem c5_damage_range (attacker defender : Actor) (rng : List Int)
    (hpl : attacker.isPlayer = true)
    (hatk : attacker.getTotalAttack = 7)
    (hdef : (if defender.isPlayer = true then defender.getTotalDefense
             else defender.defense) = 0) :
    6 ≤ (calculateDamage attacker defender false rng).1 ∧
      (calculateDamage attacker defender false rng).1 ≤ 9 := by
  obtain ⟨h1, h2⟩ := randint_le (show (-1 : Int) ≤ 2 by norm_num) rng
  simp only [calculateDamage, hpl, if_true, hatk, hdef]
  have hz : pydiv 0 2 = 0 := by decide
  rw [hz]
  constructor <;> simp <;> omega

theorem c5_witness :
    6 ≤ (calculateDamage freshPlayer (spawnZombie .zombie 1 1) false []).1 ∧
      (calculateDamage freshPlayer (spawnZombie .zombie 1 1) false []).1 ≤ 9 :=
  c5_damage_range freshPlayer (spawnZombie .zombie 1 1) [] (by decide)
    (by decide) (by decide)

/-! C1 — level-up cascades. -/

/-- C1 (the code contradicts the claim): a 300 XP award to a fresh player is
at least twice the 100 XP threshold, yet `gain_xp` runs `level_up` at most
once (an `if`, not a loop): the call ends at level 2 — a single level
increase — with `xp = 200` at or above the new threshold 150, not the two or
more cascaded increases ending below the threshold that the claim requires. -/
theorem c1_gainXp_no_cascade :
    (freshPlayer.gainXp 300).1.level = 2 ∧
      (freshPlayer.gainXp 300).1.xp = 200 ∧
      (freshPlayer.gainXp 300).1.xpToNext = 150 ∧
      ¬ ((freshPlayer.gainXp 300).1.xp < (freshPlayer.gainXp 300).1.xpToNext) := by
  decide

/-! C10 — `use_item` failure paths. -/

theorem heal_at_max (p : Player) (r : Int) (hm : p.hp = p.maxHp)
    (hr : 0 < r) : p.heal r = (p, 0) := by
  unfold Player.heal
  have h1 : min (p.hp + r) p.maxHp = p.hp := by
    rw [hm]; exact min_eq_right (by omega)
  rw [h1]
  exact congrArg₂ Prod.mk rfl (sub_self _)

theorem gauge_at_max (g r : Int) (hg : g = 100) (hr : 0 < r) :
    min 100 (g + r) = g := by
  rw [hg]; exact min_eq_left (by omega)

/-- C10: `use_item` returns failure and leaves hp, hunger, thirst and the
inventory (stack sizes included) unchanged, both for any non-consumable item
and for a consumable whose restores all have no effect because the
corresponding gauges already sit at their maxima. -/
theorem c10_useItem_no_effect (p : Player) (item : Item)
    (h : item.itemType ≠ ItemType.consumable ∨
      ((item.stats.hpRestore > 0 → p.hp = p.maxHp) ∧
       (item.stats.hungerRestore > 0 → p.hunger = 100) ∧
       (item.stats.thirstRestore > 0 → p.thirst = 100))) :
    p.useItem item = (p, false) := by
  by_cases hc : item.itemType = ItemType.consumable
  case neg => simp [Player.useItem, hc]
  case pos =>
    rcases h with h | ⟨hhp, hhun, hthi⟩
    · exact absurd hc h
    · have e1 : (if item.stats.hpRestore > 0
          then p.heal item.stats.hpRestore else (p, 0)) = (p, 0) := by
        split
        next hr => exact heal_at_max p _ (hhp hr) hr
        next => rfl
      simp only [Player.useItem]
      rw [if_neg (not_not_intro hc), e1]
      dsimp only
      have e2 : (if item.stats.hungerRestore > 0
          then ({ p with hunger := min 100 (p.hunger + item.stats.hungerRestore) },
                min 100 (p.hunger + item.stats.hungerRestore) - p.hunger)
          else (p, 0)) = (p, 0) := by
        split
        next hr =>
          rw [gauge_at_max p.hunger _ (hhun hr) hr]
          exact congrArg₂ Prod.mk rfl (sub_self _)
        next => rfl
      rw [e2]
      dsimp only
      have e3 : (if item.stats.thirstRestore > 0
          then ({ p with thirst := min 100 (p.thirst + item.stats.thirstRestore) },
                min 100 (p.thirst + item.stats.thirstRestore) - p.thirst)
          else (p, 0)) = (p, 0) := by
        split
        next hr =>
          rw [gauge_at_max p.thirst _ (hthi hr) hr]
          exact congrArg₂ Prod.mk rfl (sub_self _)
        next => rfl
      rw [e3]
      dsimp only
      rw [if_neg (by simp)]

theorem c10_witness : fullPlayer.useItem bandage = (fullPlayer, false) :=
  c10_useItem_no_effect fullPlayer bandage
    (Or.inr ⟨fun _ => rfl, fun _ => rfl, fun _ => rfl⟩)

/-! C7 — accepted rooms never overlap. -/

theorem tryPlaceDoor_rooms (m : GameMap) (x y : Int)
    (inside outside : Int × Int) :
    (tryPlaceDoor m x y inside outside).rooms = m.rooms := by
  unfold tryPlaceDoor GameMap.setTile
  split
  · rfl
  · split <;> rfl

theorem foldl_preserve {α β : Type _} (P : β → Prop) (f : β → α → β)
    (l : List α) (st : β) (h0 : P st) (hstep : ∀ b a, P b → P (f b a)) :
    P (l.foldl f st) := by
  induction l generalizing st with
  | nil => exact h0
  | cons a t ih => exact ih _ (hstep _ _ h0)

theorem placeDoorsRoom_rooms (m : GameMap) (room : RectangularRoom) :
    (placeDoorsRoom m room).rooms = m.rooms := by
  unfold placeDoorsRoom
  refine foldl_preserve (fun mm : GameMap => mm.rooms = m.rooms) _ _ _ ?_ ?_
  · exact foldl_preserve (fun mm : GameMap => mm.rooms = m.rooms) _ _ _ rfl
      (fun b a hb => by
        dsimp only
        rw [tryPlaceDoor_rooms, tryPlaceDoor_rooms]
        exact hb)
  · intro b a hb
    dsimp only
    rw [tryPlaceDoor_rooms, tryPlaceDoor_rooms]
    exact hb

theorem placeDoors_rooms (m : GameMap) (rooms : List RectangularRoom) :
    (placeDoors m rooms).rooms = m.rooms := by
  unfold placeDoors
  exact foldl_preserve (fun mm : GameMap => mm.rooms = m.rooms) _ _ _ rfl
    (fun b a hb => by
      dsimp only
      rw [placeDoorsRoom_rooms]
      exact hb)

theorem placeRoomAttempt_disjoint (w h mn mx : Int)
    (st : GameMap × List RectangularRoom × List Int)
    (hd : RoomsDisjoint st.2.1) :
    RoomsDisjoint (placeRoomAttempt w h mn mx st).2.1 := by
  simp only [placeRoomAttempt]
  split
  · exact hd
  · next hany =>
      rw [List.any_eq_true] at hany
      push_neg at hany
      refine List.pairwise_append.mpr ⟨hd, List.pairwise_singleton _ _, ?_⟩
      intro a ha b hb
      rw [List.mem_singleton] at hb
      subst hb
      rw [RectangularRoom.intersects_comm]
      have := hany a ha
      simpa using this

theorem placeRoomAttempt_nonempty (w h mn mx : Int)
    (st : GameMap × List RectangularRoom × List Int)
    (hne : st.2.1 ≠ []) :
    (placeRoomAttempt w h mn mx st).2.1 ≠ [] := by
  simp only [placeRoomAttempt]
  split
  · exact hne
  · simp

/-- C7: for any parameters and any random stream, the room list carried by a
successfully generated map is pairwise non-overlapping under the inclusive,
bufferless `intersects` test. -/
theorem c7_rooms_pairwise_disjoint (mapWidth mapHeight : Int) (maxRooms : Nat)
    (roomMinSize roomMaxSize : Int) (rng : List Int) (g : GameMap)
    (px py : Int)
    (hgen : generateDungeon mapWidth mapHeight maxRooms roomMinSize roomMaxSize
        rng = some (g, px, py)) :
    g.rooms.Pairwise (fun a b => a.intersects b = false) := by
  have key : RoomsDisjoint ((List.range maxRooms).foldl
      (fun st _ => placeRoomAttempt mapWidth mapHeight roomMinSize roomMaxSize st)
      (GameMap.new mapWidth mapHeight, [], rng)).2.1 :=
    foldl_preserve
      (fun st : GameMap × List RectangularRoom × List Int => RoomsDisjoint st.2.1)
      _ _ _ List.Pairwise.nil
      (fun b _ hb => placeRoomAttempt_disjoint mapWidth mapHeight roomMinSize
        roomMaxSize b hb)
  simp only [generateDungeon] at hgen
  split at hgen
  · next first hfirst =>
      have hg : g = placeDoors
          { ((List.range maxRooms).foldl
              (fun st _ =>
                placeRoomAttempt mapWidth mapHeight roomMinSize roomMaxSize st)
              (GameMap.new mapWidth mapHeight, [], rng)).1 with
            rooms := ((List.range maxRooms).foldl
              (fun st _ =>
                placeRoomAttempt mapWidth mapHeight roomMinSize roomMaxSize st)
              (GameMap.new mapWidth mapHeight, [], rng)).2.1 }
          ((List.range maxRooms).foldl
            (fun st _ =>
              placeRoomAttempt mapWidth mapHeight roomMinSize roomMaxSize st)
            (GameMap.new mapWidth mapHeight, [], rng)).2.1 := by
        exact congrArg Prod.fst (Option.some.inj hgen).symm
      rw [hg, placeDoors_rooms]
      exact key
  · exact absurd hgen (by simp)

theorem c7_witness :
    genExTriple.1.rooms.Pairwise (fun a b => a.intersects b = false) :=
  c7_rooms_pairwise_disjoint 20 20 1 3 3 [] genExTriple.1 genExTriple.2.1
    genExTriple.2.2 rfl

/-! C3 — behaviour when zero rooms are accepted. -/

/-- C3 (counterexample to the claim): a `generate_dungeon` call that accepts
zero rooms — possible exactly when `max_rooms` is zero, since the first
attempt is always accepted — fails fatally: the Python code reaches
`rooms[0].center` and raises `IndexError` (modelled as `none`); no clamped
interior fallback spawn exists. -/
theorem c3_counterexample : generateDungeon 80 43 0 6 10 [] = none := rfl

/-- C3 (amended): for parameters under which every placement draw has a
non-empty range — `room_min_size ≤ room_max_size` and rooms of the maximal
size still fit the map, as in the game's own call, so that Python's
`random.randint` cannot raise `ValueError` — `max_rooms ≥ 1` makes the first
placement attempt always succeed; the room list is then never empty and the
call returns a spawn point. And when the room list is empty the monster
spawner falls back to uniform random sampling over the whole grid interior,
its draws landing in `[1, width-2] × [1, height-2]`. -/
theorem c3_amended_behavior :
    (∀ (mapWidth mapHeight roomMinSize roomMaxSize : Int) (maxRooms : Nat)
        (rng : List Int), 1 ≤ maxRooms →
        roomMinSize ≤ roomMaxSize →
        roomMaxSize + 1 ≤ mapWidth →
        roomMaxSize + 1 ≤ mapHeight →
        (generateDungeon mapWidth mapHeight maxRooms roomMinSize roomMaxSize
          rng).isSome = true) ∧
    (∀ (mapWidth mapHeight : Int) (rng : List Int),
        3 ≤ mapWidth → 3 ≤ mapHeight →
        1 ≤ (spawnPos [] mapWidth mapHeight rng).1.1 ∧
        (spawnPos [] mapWidth mapHeight rng).1.1 ≤ mapWidth - 2 ∧
        1 ≤ (spawnPos [] mapWidth mapHeight rng).1.2 ∧
        (spawnPos [] mapWidth mapHeight rng).1.2 ≤ mapHeight - 2) := by
  constructor
  · intro mapWidth mapHeight roomMinSize roomMaxSize maxRooms rng hmax hsz hfw hfh
    obtain ⟨n, rfl⟩ : ∃ n, maxRooms = n + 1 :=
      ⟨maxRooms - 1, by omega⟩
    have hne : (((List.range (n + 1)).foldl
        (fun st _ =>
          placeRoomAttempt mapWidth mapHeight roomMinSize roomMaxSize st)
        (GameMap.new mapWidth mapHeight, [], rng))).2.1 ≠ [] := by
      rw [List.range_succ_eq_map, List.foldl_cons]
      refine foldl_preserve
        (fun st : GameMap × List RectangularRoom × List Int => st.2.1 ≠ [])
        _ _ _ ?_
        (fun b _ hb =>
          placeRoomAttempt_nonempty mapWidth mapHeight roomMinSize roomMaxSize
            b hb)
      simp [placeRoomAttempt]
    simp only [generateDungeon]
    split
    · rfl
    · next hnone =>
        exact absurd (List.head?_eq_none_iff.mp hnone) hne
  · intro mapWidth mapHeight rng hw hh
    obtain ⟨h1, h2⟩ := randint_le (show (1 : Int) ≤ mapWidth - 2 by omega) rng
    obtain ⟨h3, h4⟩ := randint_le (show (1 : Int) ≤ mapHeight - 2 by omega)
      (randint 1 (mapWidth - 2) rng).2
    simp only [spawnPos]
    exact ⟨h1, h2, h3, h4⟩

theorem c3_witness :
    (generateDungeon 20 20 1 3 3 []).isSome = true ∧
      (1 ≤ (spawnPos [] 10 10 []).1.1 ∧ (spawnPos [] 10 10 []).1.1 ≤ 8 ∧
        1 ≤ (spawnPos [] 10 10 []).1.2 ∧ (spawnPos [] 10 10 []).1.2 ≤ 8) :=
  ⟨c3_amended_behavior.1 20 20 3 3 1 [] (by decide) (by decide) (by decide)
      (by decide),
    c3_amended_behavior.2 10 10 [] (by decide) (by decide)⟩

/-! C6 — doors are only placed on walls flanked by floor. -/

theorem DoorStep.refl (g : GameMap) : DoorStep g g :=
  ⟨fun _ _ => Iff.rfl, fun _ _ h => h, fun _ _ h => Or.inl h⟩

theorem DoorStep.trans {g0 g1 g2 : GameMap} (h01 : DoorStep g0 g1)
    (h12 : DoorStep g1 g2) : DoorStep g0 g2 := by
  obtain ⟨f01, w01, d01⟩ := h01
  obtain ⟨f12, w12, d12⟩ := h12
  refine ⟨fun a b => (f01 a b).trans (f12 a b), fun a b h => w01 a b (w12 a b h), ?_⟩
  intro a b h
  rcases d12 a b h with h1 | ⟨hw1, hnb⟩
  · rcases d01 a b h1 with h0 | ⟨hw0, hnb0⟩
    · exact Or.inl h0
    · refine Or.inr ⟨hw0, ?_⟩
      rcases hnb0 with ⟨hl, hr⟩ | ⟨hl, hr⟩
      · exact Or.inl ⟨(f12 _ _).mp hl, (f12 _ _).mp hr⟩
      · exact Or.inr ⟨(f12 _ _).mp hl, (f12 _ _).mp hr⟩
  · exact Or.inr ⟨w01 a b hw1, hnb⟩

theorem tryPlaceDoor_step (g : GameMap) (x y : Int) (inside outside : Int × Int)
    (hpair : (inside = (x, y - 1) ∧ outside = (x, y + 1)) ∨
             (inside = (x, y + 1) ∧ outside = (x, y - 1)) ∨
             (inside = (x - 1, y) ∧ outside = (x + 1, y)) ∨
             (inside = (x + 1, y) ∧ outside = (x - 1, y))) :
    DoorStep g (tryPlaceDoor g x y inside outside) := by
  unfold tryPlaceDoor
  split
  · exact DoorStep.refl g
  · split
    · next hcond =>
        obtain ⟨hwall, hin, hout⟩ := hcond
        have tileEq : ∀ a b : Int, (g.setTile x y Tile.doorClosed).tiles a b =
            if a = x ∧ b = y then Tile.doorClosed else g.tiles a b := by
          intro a b; rfl
        refine ⟨?_, ?_, ?_⟩
        · intro a b
          rw [tileEq]
          split
          · next hab =>
              obtain ⟨ha, hb⟩ := hab
              subst ha; subst hb
              rw [hwall]
              constructor <;> intro h <;> exact absurd h (by decide)
          · exact Iff.rfl
        · intro a b h
          rw [tileEq] at h
          split at h
          · exact absurd h (by decide)
          · exact h
        · intro a b h
          rw [tileEq] at h
          split at h
          · next hab =>
              obtain ⟨ha, hb⟩ := hab
              subst ha; subst hb
              refine Or.inr ⟨hwall, ?_⟩
              rcases hpair with ⟨hi, ho⟩ | ⟨hi, ho⟩ | ⟨hi, ho⟩ | ⟨hi, ho⟩ <;>
                subst hi <;> subst ho
              · refine Or.inl ⟨?_, ?_⟩ <;> rw [tileEq] <;>
                  rw [if_neg (by intro hc; omega)] <;> assumption
              · refine Or.inl ⟨?_, ?_⟩ <;> rw [tileEq] <;>
                  rw [if_neg (by intro hc; omega)] <;> assumption
              · refine Or.inr ⟨?_, ?_⟩ <;> rw [tileEq] <;>
                  rw [if_neg (by intro hc; omega)] <;> assumption
              · refine Or.inr ⟨?_, ?_⟩ <;> rw [tileEq] <;>
                  rw [if_neg (by intro hc; omega)] <;> assumption
          · exact Or.inl h
    · exact DoorStep.refl g

theorem placeDoorsRoom_step (g : GameMap) (room : RectangularRoom) :
    DoorStep g (placeDoorsRoom g room) := by
  unfold placeDoorsRoom
  refine foldl_preserve (fun gg : GameMap => DoorStep g gg) _ _ _ ?_ ?_
  · refine foldl_preserve (fun gg : GameMap => DoorStep g gg) _ _ _
      (DoorStep.refl g) ?_
    intro b a hb
    dsimp only
    have s1 : DoorStep b
        (tryPlaceDoor b a room.y1 (a, room.y1 + 1) (a, room.y1 - 1)) :=
      tryPlaceDoor_step b a room.y1 _ _ (Or.inr (Or.inl ⟨rfl, rfl⟩))
    have s2 : DoorStep
        (tryPlaceDoor b a room.y1 (a, room.y1 + 1) (a, room.y1 - 1))
        (tryPlaceDoor
          (tryPlaceDoor b a room.y1 (a, room.y1 + 1) (a, room.y1 - 1))
          a (room.y2 - 1) (a, room.y2 - 2) (a, room.y2)) :=
      tryPlaceDoor_step
        (tryPlaceDoor b a room.y1 (a, room.y1 + 1) (a, room.y1 - 1))
        a (room.y2 - 1) (a, room.y2 - 2) (a, room.y2)
        (Or.inl ⟨by simp only [Prod.mk.injEq]; exact ⟨trivial, by omega⟩,
          by simp only [Prod.mk.injEq]; exact ⟨trivial, by omega⟩⟩)
    exact hb.trans (s1.trans s2)
  · intro b a hb
    dsimp only
    have s1 : DoorStep b
        (tryPlaceDoor b room.x1 a (room.x1 + 1, a) (room.x1 - 1, a)) :=
      tryPlaceDoor_step b room.x1 a _ _
        (Or.inr (Or.inr (Or.inr ⟨rfl, rfl⟩)))
    have s2 : DoorStep
        (tryPlaceDoor b room.x1 a (room.x1 + 1, a) (room.x1 - 1, a))
        (tryPlaceDoor
          (tryPlaceDoor b room.x1 a (room.x1 + 1, a) (room.x1 - 1, a))
          (room.x2 - 1) a (room.x2 - 2, a) (room.x2, a)) :=
      tryPlaceDoor_step
        (tryPlaceDoor b room.x1 a (room.x1 + 1, a) (room.x1 - 1, a))
        (room.x2 - 1) a (room.x2 - 2, a) (room.x2, a)
        (Or.inr (Or.inr (Or.inl
          ⟨by simp only [Prod.mk.injEq]; exact ⟨by omega, trivial⟩,
            by simp only [Prod.mk.injEq]; exact ⟨by omega, trivial⟩⟩)))
    exact hb.trans (s1.trans s2)

theorem placeDoors_step (g : GameMap) (rooms : List RectangularRoom) :
    DoorStep g (placeDoors g rooms) := by
  unfold placeDoors
  refine foldl_preserve (fun gg : GameMap => DoorStep g gg) _ _ _
    (DoorStep.refl g) ?_
  intro b a hb
  exact hb.trans (placeDoorsRoom_step b a)

/-- C6: every cell `_place_doors` converts to a closed door was a wall, and
in the finished grid the two checked neighbours of each such door — the cell
just inside the room and the cell just outside, an axis-aligned pair — are
both floor; no placed door has a non-floor tile on either checked side. -/
theorem c6_doors_flanked_by_floor (g0 : GameMap)
    (rooms : List RectangularRoom) (x y : Int)
    (hdoor : (placeDoors g0 rooms).tiles x y = .doorClosed)
    (hnew : ¬ g0.tiles x y = .doorClosed) :
    g0.tiles x y = .wall ∧
      (((placeDoors g0 rooms).tiles x (y - 1) = .floor ∧
        (placeDoors g0 rooms).tiles x (y + 1) = .floor) ∨
       ((placeDoors g0 rooms).tiles (x - 1) y = .floor ∧
        (placeDoors g0 rooms).tiles (x + 1) y = .floor)) := by
  rcases (placeDoors_step g0 rooms).2.2 x y hdoor with hold | ⟨hwall, hnb⟩
  · exact absurd hold hnew
  · exact ⟨hwall, hnb⟩

theorem c6_witness :
    doorMapEx.tiles 2 1 = .wall ∧
      (((placeDoors doorMapEx [RectangularRoom.make 1 1 4 4]).tiles 2 0 = .floor ∧
        (placeDoors doorMapEx [RectangularRoom.make 1 1 4 4]).tiles 2 2 = .floor) ∨
       ((placeDoors doorMapEx [RectangularRoom.make 1 1 4 4]).tiles 1 1 = .floor ∧
        (placeDoors doorMapEx [RectangularRoom.make 1 1 4 4]).tiles 3 1 = .floor)) :=
  c6_doors_flanked_by_floor doorMapEx [RectangularRoom.make 1 1 4 4] 2 1
    (by decide) (by decide)

/-! C4 — knockback trigger and landing conditions. -/

theorem pydiv_eq (a b : Int) (hb : 0 ≤ b) : pydiv a b = a / b :=
  Int.fdiv_eq_ediv a hb

theorem configMonster_attack_le {a : Actor} (h : isConfigMonster a) :
    a.attack ≤ 5 := by
  obtain ⟨_, _, _, _, zt, _, hatk, _⟩ := h
  rw [hatk]
  cases zt <;> norm_num [zombieAttack]

theorem configMonster_defense_le {a : Actor} (h : isConfigMonster a) :
    a.defense ≤ 2 := by
  obtain ⟨_, _, _, _, zt, _, _, hdef⟩ := h
  rw [hdef]
  cases zt <;> norm_num [zombieDefense]

theorem rollAttack_blocked_defense {attacker defender : Actor}
    {rng : List Int}
    (h : (rollAttack attacker defender rng).1 = .blocked) :
    (if defender.isPlayer = true then defender.getTotalDefense
     else defender.defense) ≥ 3 := by
  simp only [rollAttack] at h
  by_cases hp : defender.isPlayer = true
  · simp only [hp, if_true] at h ⊢
    split at h
    · simp at h
    · split at h
      · simp at h
      · split at h
        · next hge =>
            split at h
            · exact hge
            · simp at h
        · simp at h
  · rw [Bool.not_eq_true] at hp
    simp only [hp, Bool.false_eq_true, if_false] at h ⊢
    split at h
    · simp at h
    · split at h
      · simp at h
      · split at h
        · next hge =>
            split at h
            · exact hge
            · simp at h
        · simp at h

theorem blockedDamage_le_two (attacker defender : Actor) (rng2 : List Int)
    (hatk : attacker.isPlayer = false) (hle : attacker.attack ≤ 5)
    (hdp : defender.isPlayer = true) (hdef : defender.getTotalDefense ≥ 3) :
    max 0 (pydiv (calculateDamage attacker defender false rng2).1 3) ≤ 2 := by
  obtain ⟨hv1, hv2⟩ := randint_le (show (-1 : Int) ≤ 2 by norm_num) rng2
  simp only [calculateDamage, hatk, hdp, Bool.false_eq_true, if_false, if_true]
  have hd2 : 1 ≤ pydiv defender.getTotalDefense 2 := by
    rw [pydiv_eq _ _ (by norm_num)]
    omega
  have hdmg : max 1 (attacker.attack - pydiv defender.getTotalDefense 2 +
      (randint (-1) 2 rng2).1) ≤ 6 :=
    max_le (by norm_num) (by omega)
  refine max_le (by norm_num) ?_
  rw [pydiv_eq _ _ (by norm_num)]
  have h1le : 1 ≤ max 1 (attacker.attack - pydiv defender.getTotalDefense 2 +
      (randint (-1) 2 rng2).1) := le_max_left _ _
  omega

theorem applyKnockback_pos (attacker d : Actor)
    (walkable blockedAt : Int → Int → Bool) :
    if walkable (d.x + signum (d.x - attacker.x))
          (d.y + signum (d.y - attacker.y)) = true ∧
        blockedAt (d.x + signum (d.x - attacker.x))
          (d.y + signum (d.y - attacker.y)) = false then
      (applyKnockback attacker d walkable blockedAt).1.x =
          d.x + signum (d.x - attacker.x) ∧
        (applyKnockback attacker d walkable blockedAt).1.y =
          d.y + signum (d.y - attacker.y)
    else
      (applyKnockback attacker d walkable blockedAt).1.x = d.x ∧
        (applyKnockback attacker d walkable blockedAt).1.y = d.y := by
  by_cases hw : walkable (d.x + signum (d.x - attacker.x))
      (d.y + signum (d.y - attacker.y)) = true
  · by_cases hb : blockedAt (d.x + signum (d.x - attacker.x))
        (d.y + signum (d.y - attacker.y)) = false
    · rw [if_pos ⟨hw, hb⟩]
      simp only [applyKnockback]
      rw [if_pos hw, if_pos hb]
      exact ⟨rfl, rfl⟩
    · rw [if_neg (by intro hc; exact hb hc.2)]
      simp only [applyKnockback]
      rw [if_pos hw, if_neg hb]
      exact ⟨rfl, rfl⟩
  · rw [if_neg (by intro hc; exact hw hc.1)]
    simp only [applyKnockback]
    rw [if_neg hw]
    exact ⟨rfl, rfl⟩

/-- C4: in every attack the game can perform, the knockback branch runs
exactly when the result is CRITICAL or the applied damage is at least 6; when
it runs, the defender moves one cell along the sign of the defender-minus-
attacker deltas precisely when that cell is walkable and free of blocking
entities, and otherwise (including every non-knockback outcome) the
defender's position is unchanged — no error path exists. -/
theorem c4_knockback_policy (attacker defender : Actor)
    (walkable blockedAt : Int → Int → Bool) (rng : List Int)
    (hvalid : validAttackPair attacker defender) :
    ((performAttack attacker defender walkable blockedAt rng).knockbackAttempted
        = true ↔
      ((performAttack attacker defender walkable blockedAt rng).result =
          .critical ∨
        (performAttack attacker defender walkable blockedAt rng).damage ≥ 6)) ∧
    ((performAttack attacker defender walkable blockedAt rng).knockbackAttempted
        = true →
      (if walkable (defender.x + signum (defender.x - attacker.x))
            (defender.y + signum (defender.y - attacker.y)) = true ∧
          blockedAt (defender.x + signum (defender.x - attacker.x))
            (defender.y + signum (defender.y - attacker.y)) = false then
        (performAttack attacker defender walkable blockedAt rng).defender.x =
            defender.x + signum (defender.x - attacker.x) ∧
          (performAttack attacker defender walkable blockedAt rng).defender.y =
            defender.y + signum (defender.y - attacker.y)
      else
        (performAttack attacker defender walkable blockedAt rng).defender.x =
            defender.x ∧
          (performAttack attacker defender walkable blockedAt rng).defender.y =
            defender.y)) ∧
    ((performAttack attacker defender walkable blockedAt rng).knockbackAttempted
        = false →
      (performAttack attacker defender walkable blockedAt rng).defender.x =
          defender.x ∧
        (performAttack attacker defender walkable blockedAt rng).defender.y =
          defender.y) := by
  refine ⟨?_, ?_, ?_⟩
  · -- the trigger condition
    simp only [performAttack]
    split
    · next hmiss =>
        dsimp only
        rw [hmiss]
        simp
    · next hnm =>
        split
        · next hbl =>
            have hdef3 := rollAttack_blocked_defense hbl
            dsimp only
            rw [hbl]
            refine iff_of_false (by simp) ?_
            rintro (hx | hx)
            · exact absurd hx (by decide)
            · rcases hvalid with ⟨hap, hcm⟩ | ⟨hcm, hdp⟩
              · have hle2 := configMonster_defense_le hcm
                rw [hcm.1] at hdef3
                simp only [Bool.false_eq_true, if_false] at hdef3
                omega
              · have hb2 := blockedDamage_le_two attacker defender
                  (rollAttack attacker defender rng).2 hcm.1
                  (configMonster_attack_le hcm) hdp
                  (by rw [hdp] at hdef3; simpa using hdef3)
                omega
        · next hnb =>
            split
            · next hcond =>
                exact iff_of_true rfl hcond
            · next hncond =>
                exact iff_of_false (by simp) hncond
  · -- when attempted, the landing rule
    simp only [performAttack]
    split
    · intro hx; simp at hx
    · split
      · intro hx; simp at hx
      · split
        · intro _
          dsimp only
          simp only [applyKnockback]
          by_cases hw : walkable (defender.x + signum (defender.x - attacker.x))
              (defender.y + signum (defender.y - attacker.y)) = true
          · by_cases hb : blockedAt
                (defender.x + signum (defender.x - attacker.x))
                (defender.y + signum (defender.y - attacker.y)) = false
            · rw [if_pos ⟨hw, hb⟩, if_pos hw, if_pos hb]
              exact ⟨rfl, rfl⟩
            · rw [if_neg (fun hc => hb hc.2), if_pos hw, if_neg hb]
              exact ⟨rfl, rfl⟩
          · rw [if_neg (fun hc => hw hc.1), if_neg hw]
            exact ⟨rfl, rfl⟩
        · intro hx; simp at hx
  · -- when not attempted, the defender does not move
    simp only [performAttack]
    split
    · intro _; exact ⟨rfl, rfl⟩
    · split
      · intro _; exact ⟨rfl, rfl⟩
      · split
        · intro hx; simp at hx
        · intro _; exact ⟨rfl, rfl⟩

/-- Closed instance of the C4 theorem: the default player attacking a brute
with a stream that forces a critical hit, pushing it from (1, 1) to (2, 2)
on an all-floor map. -/
theorem c4_witness :
    (performAttack freshPlayer (spawnZombie .brute 1 1)
        (fun _ _ => true) (fun _ _ => false) [1, 1, 0]).knockbackAttempted
      = true ∧
    (performAttack freshPlayer (spawnZombie .brute 1 1)
        (fun _ _ => true) (fun _ _ => false) [1, 1, 0]).defender.x = 2 ∧
    (performAttack freshPlayer (spawnZombie .brute 1 1)
        (fun _ _ => true) (fun _ _ => false) [1, 1, 0]).defender.y = 2 := by
  have h := c4_knockback_policy freshPlayer (spawnZombie .brute 1 1)
    (fun _ _ => true) (fun _ _ => false) [1, 1, 0]
    (Or.inl ⟨rfl, rfl, rfl, rfl, rfl, .brute, rfl, rfl, rfl⟩)
  have hatt : (performAttack freshPlayer (spawnZombie .brute 1 1)
      (fun _ _ => true) (fun _ _ => false) [1, 1, 0]).knockbackAttempted
        = true := by decide
  have hpos := h.2.1 hatt
  rw [if_pos ⟨rfl, rfl⟩] at hpos
  exact ⟨hatt, by simpa using hpos⟩

/-! C2 — turn consumption. -/

theorem takeTurn_monsters_length (s : GameState) (i : Nat) (rng : List Int) :
    (takeTurn s i rng).1.monsters.length = s.monsters.length := by
  simp only [takeTurn]
  split
  · rfl
  · split
    · rfl
    · split
      · simp [monsterAttackPlayer]
      · split
        · split
          · simp [List.length_set]
          · simp [List.length_set]
        · rfl

theorem enemyFold (l : List Nat) (st : GameState) (log : List Nat)
    (rng : List Int) :
    (l.foldl
        (fun acc i =>
          let next := takeTurn acc.1 i acc.2.2
          (next.1, acc.2.1 ++ [i], next.2))
        (st, log, rng)).2.1 = log ++ l ∧
    (l.foldl
        (fun acc i =>
          let next := takeTurn acc.1 i acc.2.2
          (next.1, acc.2.1 ++ [i], next.2))
        (st, log, rng)).1.monsters.length = st.monsters.length := by
  induction l generalizing st log rng with
  | nil => simp
  | cons a t ih =>
      simp only [List.foldl_cons]
      obtain ⟨ih1, ih2⟩ := ih (takeTurn st a rng).1 (log ++ [a])
        (takeTurn st a rng).2
      refine ⟨?_, ?_⟩
      · rw [ih1]; simp
      · rw [ih2, takeTurn_monsters_length]

theorem processEnemyTurns_spec (s : GameState) (rng : List Int) :
    (processEnemyTurns s rng).2.1 = List.range s.monsters.length ∧
    (processEnemyTurns s rng).1.monsters.length = s.monsters.length := by
  unfold processEnemyTurns
  obtain ⟨h1, h2⟩ := enemyFold (List.range s.monsters.length) s [] rng
  exact ⟨by rw [h1]; simp, h2⟩

/-- C2: a move whose destination is neither walkable nor occupied by a
blocking entity returns with the state untouched and runs no AI step; a move
onto a walkable cell, or an attack on a blocking entity, runs exactly one AI
step per live non-player entity (the log enumerates each monster index
exactly once, in order). -/
theorem c2_turn_consumption (s : GameState) (dx dy : Int)
    (nv : Int → Int → Bool) (rng : List Int) :
    (findBlocker s.monsters (s.player.x + dx) (s.player.y + dy) = none →
      s.walkable (s.player.x + dx) (s.player.y + dy) = false →
      handleMove s dx dy nv rng = (s, [])) ∧
    (s.walkable (s.player.x + dx) (s.player.y + dy) = true ∨
      (findBlocker s.monsters (s.player.x + dx) (s.player.y + dy)).isSome
        = true →
      (handleMove s dx dy nv rng).2 =
        List.range (handleMove s dx dy nv rng).1.monsters.length) := by
  constructor
  · intro hnone hw
    simp only [handleMove, hnone]
    rw [if_pos hw]
  · intro hmove
    cases hfb : findBlocker s.monsters (s.player.x + dx) (s.player.y + dy) with
    | some ib =>
        obtain ⟨i, target⟩ := ib
        simp only [handleMove, hfb]
        rw [(processEnemyTurns_spec _ _).1, (processEnemyTurns_spec _ _).2]
    | none =>
        rcases hmove with hw | hsome
        · simp only [handleMove, hfb]
          rw [if_neg (by rw [hw]; decide)]
          rw [(processEnemyTurns_spec _ _).1, (processEnemyTurns_spec _ _).2]
        · rw [hfb] at hsome
          exact absurd hsome (by decide)

theorem c2_witness :
    handleMove stateEx 0 (-1) (fun _ _ => true) [] = (stateEx, []) :=
  (c2_turn_consumption stateEx 0 (-1) (fun _ _ => true) []).1 (by decide) rfl

/-! C9 — occupancy and walkability invariant. -/

theorem signum_bounds (d : Int) : -1 ≤ signum d ∧ signum d ≤ 1 := by
  unfold signum
  split
  · omega
  · split <;> omega

theorem signum_push (a b : Int) (h : a + signum (a - b) = b) : a = b := by
  unfold signum at h
  split at h
  · omega
  · split at h <;> omega

theorem push_away_ne {px py tx ty : Int} (hne : ¬(tx = px ∧ ty = py)) :
    ¬(tx + signum (tx - px) = px ∧ ty + signum (ty - py) = py) := by
  rintro ⟨h1, h2⟩
  exact hne ⟨signum_push tx px h1, signum_push ty py h2⟩

theorem step_not_on_player {px py mx my ax ay : Int}
    (hdist : ¬(max |px - mx| |py - my| ≤ 1))
    (hax : -1 ≤ ax ∧ ax ≤ 1) (hay : -1 ≤ ay ∧ ay ≤ 1) :
    ¬(mx + ax = px ∧ my + ay = py) := by
  push_neg at hdist
  rw [lt_max_iff] at hdist
  rintro ⟨h1, h2⟩
  rcases hdist with h | h <;> rw [lt_abs] at h <;> omega

theorem dist_after_step {px py mx my ax ay : Int}
    (hdist : 2 < max |px - mx| |py - my|)
    (hax : -1 ≤ ax ∧ ax ≤ 1) (hay : -1 ≤ ay ∧ ay ≤ 1) :
    ¬(max |px - (mx + ax)| |py - (my + ay)| ≤ 1) := by
  rw [lt_max_iff] at hdist
  intro hc
  rw [max_le_iff] at hc
  obtain ⟨h1, h2⟩ := hc
  rw [abs_le] at h1 h2
  rcases hdist with h | h <;> rw [lt_abs] at h <;> omega

theorem findBlocker_none_iff (l : List Actor) (x y : Int) :
    findBlocker l x y = none ↔ ∀ m ∈ l, ¬(m.x = x ∧ m.y = y) := by
  induction l with
  | nil => simp [findBlocker]
  | cons hd tl ih =>
      simp only [findBlocker]
      split
      · next hc =>
          refine iff_of_false (by simp) ?_
          intro h
          exact h hd (List.mem_cons_self hd tl) hc
      · next hc =>
          rw [Option.map_eq_none', ih]
          constructor
          · intro h m hm
            rcases List.mem_cons.mp hm with rfl | hmem
            · exact hc
            · exact h m hmem
          · intro h m hm
            exact h m (List.mem_cons_of_mem hd hm)

theorem findBlocker_some {l : List Actor} {x y : Int} {i : Nat} {m : Actor}
    (h : findBlocker l x y = some (i, m)) :
    l.get? i = some m ∧ m.x = x ∧ m.y = y := by
  induction l generalizing i with
  | nil => simp [findBlocker] at h
  | cons hd tl ih =>
      simp only [findBlocker] at h
      split at h
      · next hc =>
          have h2 := Option.some.inj h
          have hi : 0 = i := congrArg Prod.fst h2
          have hm : hd = m := congrArg Prod.snd h2
          subst hi
          subst hm
          exact ⟨rfl, hc⟩
      · next hc =>
          rw [Option.map_eq_some'] at h
          obtain ⟨⟨j, mm⟩, hfb, heq⟩ := h
          have hj : j + 1 = i := congrArg Prod.fst heq
          have hm : mm = m := congrArg Prod.snd heq
          subst hj
          subst hm
          obtain ⟨hg, hx, hy⟩ := ih hfb
          exact ⟨by simpa using hg, hx, hy⟩

theorem blockedAtFn_false_iff (l : List Actor) (x y : Int) :
    blockedAtFn l x y = false ↔ ∀ m ∈ l, ¬(m.x = x ∧ m.y = y) := by
  unfold blockedAtFn
  cases hfb : findBlocker l x y with
  | none => simpa using (findBlocker_none_iff l x y).mp hfb
  | some p =>
      obtain ⟨i, m⟩ := p
      obtain ⟨hg, hx, hy⟩ := findBlocker_some hfb
      refine iff_of_false (by simp) ?_
      intro h
      exact h m (List.get?_mem hg) ⟨hx, hy⟩

theorem get_set_self {l : List Actor} {i : Nat} {m : Actor}
    (h : l.get? i = some m) (a : Actor) : (l.set i a).get? i = some a := by
  induction l generalizing i with
  | nil => simp at h
  | cons hd tl ih =>
      cases i with
      | zero => rfl
      | succ n =>
          have := ih (by simpa using h)
          simpa using this

theorem pairwise_posDistinct_set_fresh {l : List Actor} (i : Nat) (a : Actor)
    (hp : l.Pairwise posDistinct)
    (ha : ∀ b ∈ l, ¬(b.x = a.x ∧ b.y = a.y)) :
    (l.set i a).Pairwise posDistinct := by
  induction l generalizing i with
  | nil => simp
  | cons hd tl ih =>
      rw [List.pairwise_cons] at hp
      cases i with
      | zero =>
          simp only [List.set]
          rw [List.pairwise_cons]
          refine ⟨?_, hp.2⟩
          intro b hb
          have hfree := ha b (List.mem_cons_of_mem hd hb)
          intro hc
          exact hfree ⟨hc.1.symm, hc.2.symm⟩
      | succ n =>
          simp only [List.set]
          rw [List.pairwise_cons]
          refine ⟨?_,
            ih n hp.2 (fun b hb => ha b (List.mem_cons_of_mem hd hb))⟩
          intro b hb
          rcases List.mem_or_eq_of_mem_set hb with hmem | heq
          · exact hp.1 b hmem
          · subst heq
            exact ha hd (List.mem_cons_self hd tl)

theorem pairwise_posDistinct_set_samepos {l : List Actor} (i : Nat)
    {m : Actor} (a : Actor) (hget : l.get? i = some m)
    (hx : a.x = m.x) (hy : a.y = m.y) (hp : l.Pairwise posDistinct) :
    (l.set i a).Pairwise posDistinct := by
  induction l generalizing i with
  | nil => simp
  | cons hd tl ih =>
      rw [List.pairwise_cons] at hp
      cases i with
      | zero =>
          obtain rfl : hd = m := Option.some.inj hget
          simp only [List.set]
          rw [List.pairwise_cons]
          refine ⟨?_, hp.2⟩
          intro b hb
          have := hp.1 b hb
          intro hc
          exact this ⟨hx.symm.trans hc.1, hy.symm.trans hc.2⟩
      | succ n =>
          have hget2 : tl.get? n = some m := by simpa using hget
          simp only [List.set]
          rw [List.pairwise_cons]
          refine ⟨?_, ih n hget2 hp.2⟩
          intro b hb
          rcases List.mem_or_eq_of_mem_set hb with hmem | heq
          · exact hp.1 b hmem
          · subst heq
            have hmem2 : m ∈ tl := List.get?_mem hget2
            have := hp.1 m hmem2
            intro hc
            exact this ⟨hc.1.trans hx, hc.2.trans hy⟩

theorem closedMap_bounds {w : Int → Int → Bool} {width height x y : Int}
    (hc : ClosedMap w width height) (hw : w x y = true) :
    0 ≤ x ∧ x < width ∧ 0 ≤ y ∧ y < height := by
  have := hc x y hw
  omega

theorem moveTowardsPlayer_spec (w b : Int → Int → Bool) (m : Actor)
    (dx dy : Int) :
    moveTowardsPlayer w b m dx dy = m ∨
    ((moveTowardsPlayer w b m dx dy =
        { m with x := m.x + signum dx, y := m.y + signum dy } ∨
      moveTowardsPlayer w b m dx dy = { m with x := m.x + signum dx } ∨
      moveTowardsPlayer w b m dx dy = { m with y := m.y + signum dy }) ∧
     w (moveTowardsPlayer w b m dx dy).x (moveTowardsPlayer w b m dx dy).y
        = true ∧
     b (moveTowardsPlayer w b m dx dy).x (moveTowardsPlayer w b m dx dy).y
        = false) := by
  simp only [moveTowardsPlayer]
  split
  · next hw =>
      split
      · next hb => exact Or.inr ⟨Or.inl rfl, hw, hb⟩
      · split
        · split
          · next hok => exact Or.inr ⟨Or.inr (Or.inl rfl), hok.1, hok.2⟩
          · split
            · next hok => exact Or.inr ⟨Or.inr (Or.inr rfl), hok.1, hok.2⟩
            · exact Or.inl rfl
        · exact Or.inl rfl
  · exact Or.inl rfl

theorem moveTowardsPlayer_delta (w b : Int → Int → Bool) (m : Actor)
    (dx dy : Int) :
    ∃ ax ay : Int, (moveTowardsPlayer w b m dx dy).x = m.x + ax ∧
      (moveTowardsPlayer w b m dx dy).y = m.y + ay ∧
      -1 ≤ ax ∧ ax ≤ 1 ∧ -1 ≤ ay ∧ ay ≤ 1 := by
  obtain ⟨hx1, hx2⟩ := signum_bounds dx
  obtain ⟨hy1, hy2⟩ := signum_bounds dy
  rcases moveTowardsPlayer_spec w b m dx dy with h | ⟨hsh, _, _⟩
  · exact ⟨0, 0, by rw [h]; omega, by rw [h]; omega, by omega, by omega,
      by omega, by omega⟩
  · rcases hsh with h | h | h
    · exact ⟨signum dx, signum dy, by rw [h], by rw [h], hx1, hx2, hy1, hy2⟩
    · exact ⟨signum dx, 0, by rw [h], by rw [h, add_zero], hx1, hx2, by omega,
        by omega⟩
    · exact ⟨0, signum dy, by rw [h, add_zero], by rw [h], by omega, by omega,
        hy1, hy2⟩

theorem performAttack_defender_spec (attacker defender : Actor)
    (w b : Int → Int → Bool) (rng : List Int) :
    ((performAttack attacker defender w b rng).defender.x = defender.x ∧
      (performAttack attacker defender w b rng).defender.y = defender.y) ∨
    (w (defender.x + signum (defender.x - attacker.x))
        (defender.y + signum (defender.y - attacker.y)) = true ∧
      b (defender.x + signum (defender.x - attacker.x))
        (defender.y + signum (defender.y - attacker.y)) = false ∧
      (performAttack attacker defender w b rng).defender.x =
        defender.x + signum (defender.x - attacker.x) ∧
      (performAttack attacker defender w b rng).defender.y =
        defender.y + signum (defender.y - attacker.y)) := by
  simp only [performAttack]
  split
  · exact Or.inl ⟨rfl, rfl⟩
  · split
    · exact Or.inl ⟨rfl, rfl⟩
    · split
      · dsimp only
        simp only [applyKnockback]
        by_cases hw : w (defender.x + signum (defender.x - attacker.x))
            (defender.y + signum (defender.y - attacker.y)) = true
        · by_cases hb : b (defender.x + signum (defender.x - attacker.x))
              (defender.y + signum (defender.y - attacker.y)) = false
          · rw [if_pos hw, if_pos hb]
            exact Or.inr ⟨hw, hb, rfl, rfl⟩
          · rw [if_pos hw, if_neg hb]
            exact Or.inl ⟨rfl, rfl⟩
        · rw [if_neg hw]
          exact Or.inl ⟨rfl, rfl⟩
      · exact Or.inl ⟨rfl, rfl⟩

theorem gainXp_pos (p : Actor) (n : Int) :
    (p.gainXp n).1.x = p.x ∧ (p.gainXp n).1.y = p.y := by
  simp only [Actor.gainXp, Actor.levelUp]
  split
  · exact ⟨rfl, rfl⟩
  · exact ⟨rfl, rfl⟩

theorem takeTurn_frame (s : GameState) (i : Nat) (rng : List Int) :
    (takeTurn s i rng).1.walkable = s.walkable ∧
    (takeTurn s i rng).1.width = s.width ∧
    (takeTurn s i rng).1.height = s.height := by
  simp only [takeTurn, monsterAttackPlayer]
  split
  · exact ⟨rfl, rfl, rfl⟩
  · split
    · exact ⟨rfl, rfl, rfl⟩
    · split
      · exact ⟨rfl, rfl, rfl⟩
      · split
        · split
          · exact ⟨rfl, rfl, rfl⟩
          · exact ⟨rfl, rfl, rfl⟩
        · exact ⟨rfl, rfl, rfl⟩

theorem invOn_set {w : Int → Int → Bool} {wd ht : Int} {p : Actor}
    {ms : List Actor} (i : Nat) {m : Actor} (m1 : Actor)
    (hinv : InvOn w wd ht p ms) (hc : ClosedMap w wd ht)
    (hget : ms.get? i = some m)
    (hpos : (m1.x = m.x ∧ m1.y = m.y) ∨
      (w m1.x m1.y = true ∧ (∀ mm ∈ ms, ¬(mm.x = m1.x ∧ mm.y = m1.y)) ∧
        ¬(m1.x = p.x ∧ m1.y = p.y))) :
    InvOn w wd ht p (ms.set i m1) := by
  obtain ⟨hpl, hms, hmp, hpw⟩ := hinv
  have hmem : m ∈ ms := List.get?_mem hget
  rcases hpos with ⟨hx, hy⟩ | ⟨hw1, hfree, hnp⟩
  · refine ⟨hpl, ?_, ?_, pairwise_posDistinct_set_samepos i m1 hget hx hy hpw⟩
    · intro mm hmm
      rcases List.mem_or_eq_of_mem_set hmm with h | h
      · exact hms mm h
      · subst h
        rw [hx, hy]
        exact hms m hmem
    · intro mm hmm
      rcases List.mem_or_eq_of_mem_set hmm with h | h
      · exact hmp mm h
      · subst h
        have := hmp m hmem
        intro hcc
        exact this ⟨hx.symm.trans hcc.1, hy.symm.trans hcc.2⟩
  · refine ⟨hpl, ?_, ?_, pairwise_posDistinct_set_fresh i m1 hpw hfree⟩
    · intro mm hmm
      rcases List.mem_or_eq_of_mem_set hmm with h | h
      · exact hms mm h
      · subst h
        exact ⟨hw1, closedMap_bounds hc hw1⟩
    · intro mm hmm
      rcases List.mem_or_eq_of_mem_set hmm with h | h
      · exact hmp mm h
      · subst h
        exact hnp

theorem invOn_erase {w : Int → Int → Bool} {wd ht : Int} {p : Actor}
    {ms : List Actor} (i : Nat) (hinv : InvOn w wd ht p ms) :
    InvOn w wd ht p (ms.eraseIdx i) := by
  obtain ⟨hpl, hms, hmp, hpw⟩ := hinv
  have hsub : List.Sublist (ms.eraseIdx i) ms := List.eraseIdx_sublist ms i
  exact ⟨hpl, fun mm hmm => hms mm (hsub.subset hmm),
    fun mm hmm => hmp mm (hsub.subset hmm), hpw.sublist hsub⟩

theorem monsterAttackPlayer_inv (s : GameState) (m : Actor) (rng : List Int)
    (hmap : MapClosed s) (hinv : Inv s) :
    Inv (monsterAttackPlayer s m rng).1 := by
  obtain ⟨hpl, hms, hmp, hpw⟩ := hinv
  simp only [monsterAttackPlayer, Inv, InvOn]
  rcases performAttack_defender_spec m s.player s.walkable
      (blockedAtFn s.monsters) rng with ⟨hx, hy⟩ | ⟨hw1, hb1, hx, hy⟩
  · refine ⟨by rw [hx, hy]; exact hpl, hms, ?_, hpw⟩
    intro mm hmm
    unfold posDistinct
    rw [hx, hy]
    exact hmp mm hmm
  · refine ⟨by rw [hx, hy]; exact ⟨hw1, closedMap_bounds hmap hw1⟩, hms,
      ?_, hpw⟩
    intro mm hmm
    unfold posDistinct
    rw [hx, hy]
    exact (blockedAtFn_false_iff _ _ _).mp hb1 mm hmm

theorem takeTurn_inv (s : GameState) (i : Nat) (rng : List Int)
    (hmap : MapClosed s) (hinv : Inv s) : Inv (takeTurn s i rng).1 := by
  simp only [takeTurn]
  split
  · exact hinv
  · next m hget =>
      split
      · exact hinv
      · split
        · exact monsterAttackPlayer_inv s m rng hmap hinv
        · next hd1 =>
            split
            · next hd8 =>
                set m1 : Actor := moveTowardsPlayer s.walkable
                  (blockedAtFn s.monsters) m (s.player.x - m.x)
                  (s.player.y - m.y) with hm1
                have hpos1 : (m1.x = m.x ∧ m1.y = m.y) ∨
                    (s.walkable m1.x m1.y = true ∧
                      (∀ mm ∈ s.monsters, ¬(mm.x = m1.x ∧ mm.y = m1.y)) ∧
                      ¬(m1.x = s.player.x ∧ m1.y = s.player.y)) := by
                  rw [hm1]
                  rcases moveTowardsPlayer_spec s.walkable
                      (blockedAtFn s.monsters) m (s.player.x - m.x)
                      (s.player.y - m.y) with heq | ⟨hsh, hw1, hb1⟩
                  · left
                    rw [heq]
                    exact ⟨rfl, rfl⟩
                  · right
                    refine ⟨hw1, (blockedAtFn_false_iff _ _ _).mp hb1, ?_⟩
                    obtain ⟨ax, ay, hax, hay, b1, b2, b3, b4⟩ :=
                      moveTowardsPlayer_delta s.walkable
                        (blockedAtFn s.monsters) m (s.player.x - m.x)
                        (s.player.y - m.y)
                    rw [hax, hay]
                    exact step_not_on_player hd1 ⟨b1, b2⟩ ⟨b3, b4⟩
                have hinv1 : InvOn s.walkable s.width s.height s.player
                    (s.monsters.set i m1) := invOn_set i m1 hinv hmap hget hpos1
                split
                · next hfast =>
                    refine invOn_set i _ hinv1 hmap (get_set_self hget m1) ?_
                    rcases moveTowardsPlayer_spec s.walkable
                        (blockedAtFn (s.monsters.set i m1)) m1
                        (s.player.x - m1.x) (s.player.y - m1.y) with
                      heq | ⟨hsh, hw2, hb2⟩
                    · left
                      rw [heq]
                      exact ⟨rfl, rfl⟩
                    · right
                      refine ⟨hw2, (blockedAtFn_false_iff _ _ _).mp hb2, ?_⟩
                      obtain ⟨ax2, ay2, hax2, hay2, c1, c2, c3, c4⟩ :=
                        moveTowardsPlayer_delta s.walkable
                          (blockedAtFn (s.monsters.set i m1)) m1
                          (s.player.x - m1.x) (s.player.y - m1.y)
                      rw [hax2, hay2]
                      obtain ⟨ax1, ay1, hax1, hay1, d1, d2, d3, d4⟩ :=
                        moveTowardsPlayer_delta s.walkable
                          (blockedAtFn s.monsters) m (s.player.x - m.x)
                          (s.player.y - m.y)
                      rw [← hm1] at hax1 hay1
                      apply step_not_on_player ?_ ⟨c1, c2⟩ ⟨c3, c4⟩
                      rw [hax1, hay1]
                      exact dist_after_step hfast.2 ⟨d1, d2⟩ ⟨d3, d4⟩
                · exact hinv1
            · exact hinv

theorem mapClosed_takeTurn (s : GameState) (i : Nat) (rng : List Int)
    (hmap : MapClosed s) : MapClosed (takeTurn s i rng).1 := by
  obtain ⟨f1, f2, f3⟩ := takeTurn_frame s i rng
  unfold MapClosed
  rw [f1, f2, f3]
  exact hmap

theorem processEnemyTurns_inv (s : GameState) (rng : List Int)
    (hmap : MapClosed s) (hinv : Inv s) :
    Inv (processEnemyTurns s rng).1 := by
  unfold processEnemyTurns
  refine (foldl_preserve
    (fun acc : GameState × List Nat × List Int => MapClosed acc.1 ∧ Inv acc.1)
    _ _ _ ⟨hmap, hinv⟩ ?_).2
  intro b i hb
  exact ⟨mapClosed_takeTurn b.1 i b.2.2 hb.1, takeTurn_inv b.1 i b.2.2 hb.1 hb.2⟩

/-- C9: every way the turn pipeline moves an entity — the player move, an
attack with knockback of either side, each monster's AI step including the
diagonal-blocked fallback and the fast-zombie double move, and a wait's full
enemy phase — preserves the occupancy invariant: no two blocking entities
share a cell and every entity stands on a walkable in-bounds tile, because
each move first checks the destination for walkability and blockers; hence
the invariant holds in every state reachable from a freshly generated game,
whose maps keep all walkable cells strictly inside the border. -/
theorem c9_occupancy_invariant (s : GameState) (dx dy : Int)
    (nv : Int → Int → Bool) (rng : List Int)
    (hmap : MapClosed s) (hinv : Inv s) :
    Inv (handleMove s dx dy nv rng).1 ∧ Inv (processEnemyTurns s rng).1 := by
  refine ⟨?_, processEnemyTurns_inv s rng hmap hinv⟩
  cases hfb : findBlocker s.monsters (s.player.x + dx) (s.player.y + dy) with
  | none =>
      simp only [handleMove, hfb]
      split
      · exact hinv
      · next hnw =>
          have hw : s.walkable (s.player.x + dx) (s.player.y + dy) = true := by
            revert hnw
            cases s.walkable (s.player.x + dx) (s.player.y + dy) <;> simp
          apply processEnemyTurns_inv
          · exact hmap
          · obtain ⟨hpl, hms, hmp, hpw⟩ := hinv
            refine ⟨⟨hw, closedMap_bounds hmap hw⟩, hms, ?_, hpw⟩
            intro mm hmm
            exact (findBlocker_none_iff _ _ _).mp hfb mm hmm
  | some ib =>
      obtain ⟨i, target⟩ := ib
      obtain ⟨hget, htx, hty⟩ := findBlocker_some hfb
      obtain ⟨hpl0, hms0, hmp0, hpw0⟩ := hinv
      simp only [handleMove, hfb]
      have hinv1 : InvOn s.walkable s.width s.height s.player
          (s.monsters.set i (performAttack s.player target s.walkable
            (blockedAtFn s.monsters) rng).defender) := by
        refine invOn_set i _ ⟨hpl0, hms0, hmp0, hpw0⟩ hmap hget ?_
        rcases performAttack_defender_spec s.player target s.walkable
            (blockedAtFn s.monsters) rng with ⟨hx, hy⟩ | ⟨hw1, hb1, hx, hy⟩
        · exact Or.inl ⟨hx, hy⟩
        · right
          refine ⟨by rw [hx, hy]; exact hw1, ?_, ?_⟩
          · intro mm hmm
            rw [hx, hy]
            exact (blockedAtFn_false_iff _ _ _).mp hb1 mm hmm
          · rw [hx, hy]
            exact push_away_ne (hmp0 target (List.get?_mem hget))
      split
      · next hdead =>
          apply processEnemyTurns_inv
          · exact hmap
          · obtain ⟨hpl, hms, hmp, hpw⟩ := hinv1
            obtain ⟨hg1, hg2⟩ := gainXp_pos s.player
              (10 + (performAttack s.player target s.walkable
                (blockedAtFn s.monsters) rng).defender.maxHp)
            refine invOn_erase i ⟨by rw [hg1, hg2]; exact hpl, hms, ?_, hpw⟩
            intro mm hmm
            have := hmp mm hmm
            unfold posDistinct at this ⊢
            rw [hg1, hg2]
            exact this
      · next =>
          apply processEnemyTurns_inv
          · exact hmap
          · exact hinv1

theorem c9_witness :
    Inv (handleMove stateEx 1 0 (fun _ _ => true) []).1 ∧
      Inv (processEnemyTurns stateEx []).1 :=
  c9_occupancy_invariant stateEx 1 0 (fun _ _ => true) []
    (by
      intro x y h
      simp only [stateEx] at h
      rw [decide_eq_true_eq] at h
      simp only [stateEx]
      omega)
    (by
      refine ⟨by decide, ?_, ?_, ?_⟩
      · intro m hm
        simp only [stateEx, List.mem_singleton] at hm
        subst hm
        decide
      · intro m hm
        simp only [stateEx, List.mem_singleton] at hm
        subst hm
        unfold posDistinct
        decide
      · simp [stateEx])

end DeadHorizon
